import Mathlib

/-!
Verification development for the AI multi-agent technical interviewer
backend.  The definitions below are a shallow embedding of the Python
backend: Python floats are modelled as rationals, Python dicts as
insertion-ordered association lists, the LLM oracle as an explicit
parameter describing the outcome of the call (parsed JSON payload,
unparseable reply, or raised exception), and each endpoint or analyzer as
a pure function on an explicit session state.  Free-text fields that are
only interpolated into prompts or user-facing messages are kept but their
dynamic parts (interpolated numbers) are elided, since no property depends
on them.
-/

namespace AIInterviewer

/-! ## Association-list dictionaries

Python dict semantics: `d[k] = v` replaces the binding in place when the key
is present (insertion order preserved) and appends a new binding otherwise;
`d.get(k, default)` is a non-throwing lookup. -/

def lookA {α β : Type} [DecidableEq α] (l : List (α × β)) (k : α) : Option β :=
  match l with
  | [] => none
  | (k0, v0) :: rest => if k0 = k then some v0 else lookA rest k

def updA {α β : Type} [DecidableEq α] (l : List (α × β)) (k : α) (v : β) :
    List (α × β) :=
  match l with
  | [] => [(k, v)]
  | (k0, v0) :: rest => if k0 = k then (k, v) :: rest else (k0, v0) :: updA rest k v

/-! ## Character-level string helpers

The Python code uses `str.strip`, `str.rstrip`, `str.split`, substring tests
and small regular expressions.  These are modelled structurally over the
character list of the string so that all definitions reduce in the kernel. -/

/-- Python `str.rstrip()`. -/
def rstripChars (l : List Char) : List Char :=
  (l.reverse.dropWhile Char.isWhitespace).reverse

/-- Python `str.strip()`. -/
def stripChars (l : List Char) : List Char :=
  (rstripChars l).dropWhile Char.isWhitespace

/-- Python `str.split(sep)` for a single-character separator. -/
def splitOnChar (sep : Char) : List Char → List (List Char)
  | [] => [[]]
  | c :: rest =>
      let r := splitOnChar sep rest
      if c = sep then [] :: r
      else
        match r with
        | h :: t => (c :: h) :: t
        | [] => [[c]]

/-- `pat` occurs at the start of `l` (helper for substring tests). -/
def prefixChars : List Char → List Char → Bool
  | [], _ => true
  | _ :: _, [] => false
  | a :: as, b :: bs => a = b && prefixChars as bs

/-- Python `pat in s` (substring containment). -/
def containsChars (pat : List Char) : List Char → Bool
  | [] => prefixChars pat []
  | c :: rest => prefixChars pat (c :: rest) || containsChars pat rest

/-- Python `s.upper()` (ASCII, as applied to the agents' verdict text). -/
def upperChars (l : List Char) : List Char := l.map Char.toUpper

/-- Last component of Python `s.split('_')`, as used for the clarification
scope key `f"{context_type}_{context_id.split('_')[-1]}"`. -/
def lastUnderscoreSegment (s : String) : String :=
  String.mk ((splitOnChar '_' s.data).getLastD [])

/-! ## Python `round(x, 2)` (banker's rounding, two decimals) -/

def pyRoundHalfEven (x : ℚ) : ℤ :=
  if x - ⌊x⌋ < 1/2 then ⌊x⌋
  else if 1/2 < x - ⌊x⌋ then ⌊x⌋ + 1
  else if ⌊x⌋ % 2 = 0 then ⌊x⌋ else ⌊x⌋ + 1

def pyRound2 (q : ℚ) : ℚ :=
  (pyRoundHalfEven (q * 100) : ℚ) / 100

/-- `q` is an integer multiple of `1/10`.  All severity weights and the
penalty sums built from them have this form, on which `round(x, 2)` is the
identity. -/
def TenthInt (q : ℚ) : Prop := ∃ k : ℤ, q * 10 = (k : ℚ)

/-! ## Penalty ledger and configuration

`prompts_config.json` (the `CONFIG` object) ships next to the backend and is
not part of the source tree; its `penalty_weights` table is therefore kept
as an explicit parameter: a level-keyed association list of per-penalty-type
weights, with exactly the lookup/fallback semantics the code applies to it. -/

structure Penalty where
  type : String
  points : ℚ
  reason : String
  timestamp : String := ""
  deriving DecidableEq

abbrev PenaltyWeights := List (String × List (String × ℚ))

/-- `CONFIG["penalty_weights"].get(level, CONFIG["penalty_weights"]["middle"])`. -/
def pwLevelD (pw : PenaltyWeights) (level : String) : List (String × ℚ) :=
  (lookA pw level).getD ((lookA pw "middle").getD [])

/-- `... .get(key, default)` on the level's weight table. -/
def pwGetD (pw : PenaltyWeights) (level key : String) (default : ℚ) : ℚ :=
  (lookA (pwLevelD pw level) key).getD default

/-- `CONFIG["penalty_weights"].get(level, ...)[key]`: a direct index.  A
missing key raises `KeyError` in Python; the raising case is modelled as `0`
and every theorem about the produced points carries the hypothesis that the
key is present (`pwIndex? ... = some w`). -/
def pwIndexD (pw : PenaltyWeights) (level key : String) : ℚ :=
  (lookA (pwLevelD pw level) key).getD 0

def pwIndex? (pw : PenaltyWeights) (level key : String) : Option ℚ :=
  lookA (pwLevelD pw level) key

/-- `CONFIG["penalty_weights"][level][key]`: strict on both indices (used
for `poor_communication` and `slow_feedback_response`); a missing key is
modelled as in `pwIndexD`. -/
def pwStrictD (pw : PenaltyWeights) (level key : String) : ℚ :=
  ((lookA pw level).bind (fun m => lookA m key)).getD 0

def pwStrict? (pw : PenaltyWeights) (level key : String) : Option ℚ :=
  (lookA pw level).bind (fun m => lookA m key)

/-- Count of ledger entries of one penalty type. -/
def penaltyTypeCount (ps : List Penalty) (t : String) : Nat :=
  (ps.filter (fun p => p.type == t)).length

/-! ## Oracle model

Every analyzer sends one prompt to the LLM and then either finds a JSON
object in the reply (`parsed`, carrying the fields of that object, optional
because the code reads them with `dict.get` defaults), finds no JSON object
(`unparseable`), or the call raises (`failure e`, with the exception text
interpolated into the fallback reason; the interpolation is elided). -/

inductive OracleReply (α : Type) where
  | parsed : α → OracleReply α
  | unparseable : OracleReply α
  | failure : String → OracleReply α

/-- Parsed JSON payload for the score-based analyzers (ADR and learning
agility): only the fields the code reads.  List-valued free-text fields
(`issues`, `improved_areas`, ...) are elided. -/
structure ScorePayload where
  score : Option ℤ := none
  feedback : Option String := none

/-! ## Catalog entities and session state -/

structure Task where
  id : ℤ
  title : String := ""
  hints : List String := []
  deriving DecidableEq

structure TheoryQuestion where
  id : ℤ
  category : String := ""
  question : String := ""
  expected_topics : List String := []
  deriving DecidableEq

structure CtxSwitchResult where
  is_violation : Bool
  penalty_score : ℚ
  reason : String
  severity : String
  specific_issue : Option String := none
  deriving DecidableEq

/-- The dict returned by `analyze_conflict_behavior`.  The short-message
short-circuit branch returns a dict WITHOUT a `severity` key, which is why
`severity` is optional here; every consumer reads it with
`.get("severity", "none")` (or behind an `is_violation` guard). -/
structure ConflictResult where
  is_violation : Bool
  penalty_score : ℚ
  behavior_type : String
  severity : Option String
  reason : String
  specific_quote : Option String := none
  deriving DecidableEq

structure RViolation where
  line : Nat
  type : String
  message : String := ""
  severity : String
  deriving DecidableEq

structure ReadabilityResult where
  violations : List RViolation
  penalty_score : ℚ
  feedback : String
  readability_score : ℚ
  violations_count : Nat
  deriving DecidableEq

structure AdrResult where
  adr_score : ℚ
  feedback : String
  issues : List String
  deriving DecidableEq

structure AgilityResult where
  score : ℚ
  improved_areas : List String
  still_needs_improvement : List String
  feedback : String
  deriving DecidableEq

structure ClarHistEntry where
  message : String
  is_clarification : Bool
  confidence : ℚ
  bonus : ℚ
  deriving DecidableEq

/-- The mutable `InterviewSession` dataclass (fields relevant to scoring;
pure timing fields and the static persona configuration are orthogonal to
every property below).  Entries of `clarification_requests` are reduced to
the question text (the code stores a dict whose only consumed aspect is the
list length). -/
structure Session where
  level : String := ""
  coding_tasks : List Task := []
  theory_questions : List TheoryQuestion := []
  current_task_idx : Nat := 0
  current_theory_idx : Nat := 0
  attempts : List (String × Nat) := []
  coding_scores : List (ℤ × ℚ) := []
  theory_scores : List (ℤ × ℚ) := []
  penalties : List Penalty := []
  chat_history : List (String × String) := []
  previous_answers : List (ℤ × String) := []
  feedback_received : List (ℤ × String) := []
  learning_agility_scores : List (ℤ × ℚ) := []
  clarification_requests : List (String × List String) := []
  clarification_bonuses : List (String × ℚ) := []
  clarification_analysis_history : List ClarHistEntry := []
  context_switching_violations : List CtxSwitchResult := []
  conflict_behavior_violations : List ConflictResult := []
  code_readability_scores : List (ℤ × ReadabilityResult) := []
  deriving DecidableEq

/-! ## Context-switching analyzer -/

structure CtxPayload where
  is_violation : Option Bool := none
  severity : Option String := none
  reason : Option String := none
  specific_issue : Option String := none

/-- `analyze_context_switching`.  Returns the verdict together with a flag
recording whether the oracle was consulted (`call_llm_simple` reached). -/
def analyze_context_switching (pw : PenaltyWeights) (current_message : String)
    (chat_history : List (String × String)) (current_context : String) (level : String)
    (oracle : OracleReply CtxPayload) : CtxSwitchResult × Bool :=
  if current_message.data = [] ∨ (stripChars current_message.data).length < 5 then
    ({ is_violation := false, penalty_score := 0,
       reason := "Сообщение слишком короткое для анализа", severity := "none" }, false)
  else
    match oracle with
    | .parsed r =>
        let severity := r.severity.getD "none"
        let mult : ℚ :=
          if severity = "none" then 0
          else if severity = "minor" then 1/2
          else if severity = "moderate" then 1
          else if severity = "severe" then 3/2
          else 0
        let base_penalty := pwGetD pw level "context_switching" 2
        ({ is_violation := r.is_violation.getD false,
           penalty_score := base_penalty * mult,
           reason := r.reason.getD "Анализ завершен",
           severity := severity,
           specific_issue := some (r.specific_issue.getD "") }, true)
    | .unparseable =>
        ({ is_violation := false, penalty_score := 0,
           reason := "Не удалось проанализировать", severity := "none" }, true)
    | .failure e =>
        ({ is_violation := false, penalty_score := 0,
           reason := "Ошибка анализа: " ++ e, severity := "none" }, true)

/-! ## Conflict-behavior analyzer -/

structure ConflictPayload where
  is_violation : Option Bool := none
  severity : Option String := none
  behavior_type : Option String := none
  reason : Option String := none
  specific_quote : Option String := none

def analyze_conflict_behavior (message : String) (chat_history : List (String × String))
    (level : String) (oracle : OracleReply ConflictPayload) : ConflictResult × Bool :=
  if message.data = [] ∨ (stripChars message.data).length < 5 then
    ({ is_violation := false, penalty_score := 0, behavior_type := "none",
       severity := none, reason := "Сообщение слишком короткое" }, false)
  else
    match oracle with
    | .parsed r =>
        let severity := r.severity.getD "none"
        let severity_penalty : ℚ :=
          if severity = "none" then 0
          else if severity = "minor" then 3
          else if severity = "moderate" then 7
          else if severity = "severe" then 15
          else if severity = "critical" then 25
          else 0
        let multiplier : ℚ :=
          if level = "junior" then 4/5
          else if level = "middle" then 1
          else if level = "senior" then 13/10
          else 1
        ({ is_violation := r.is_violation.getD false,
           penalty_score := pyRound2 (severity_penalty * multiplier),
           behavior_type := r.behavior_type.getD "none",
           severity := some severity,
           reason := r.reason.getD "Анализ завершен",
           specific_quote := some (r.specific_quote.getD "") }, true)
    | .unparseable =>
        ({ is_violation := false, penalty_score := 0, behavior_type := "none",
           severity := some "none", reason := "Не удалось проанализировать" }, true)
    | .failure e =>
        ({ is_violation := false, penalty_score := 0, behavior_type := "none",
           severity := some "none", reason := "Ошибка анализа: " ++ e }, true)

/-! ## Depth-of-answer (ADR) and learning-agility analyzers -/

def calculate_adr_with_llm (answer question : String) (expected_topics : List String)
    (oracle : OracleReply ScorePayload) : AdrResult :=
  if answer.data = [] ∨ (stripChars answer.data).length < 10 then
    { adr_score := 0, feedback := "Ответ слишком короткий или отсутствует",
      issues := ["слишком короткий ответ"] }
  else
    match oracle with
    | .parsed r =>
        { adr_score := ((min 10 (max 0 (r.score.getD 5)) : ℤ) : ℚ) / 10,
          feedback := r.feedback.getD "Хороший ответ", issues := [] }
    | .unparseable =>
        { adr_score := 1/2, feedback := "Не удалось проанализировать глубину ответа",
          issues := ["ошибка анализа"] }
    | .failure e =>
        { adr_score := 1/2, feedback := "Ошибка анализа: " ++ e,
          issues := ["техническая ошибка"] }

def calculate_learning_agility (previous_answer new_answer feedback : String)
    (oracle : OracleReply ScorePayload) : AgilityResult :=
  if previous_answer.data = [] ∨ feedback.data = [] ∨ new_answer.data = [] then
    { score := 0, improved_areas := [], still_needs_improvement := [],
      feedback := "Недостаточно данных для анализа обучения" }
  else
    match oracle with
    | .parsed r =>
        { score := ((min 10 (max 0 (r.score.getD 5)) : ℤ) : ℚ) / 10,
          improved_areas := [], still_needs_improvement := [],
          feedback := r.feedback.getD "Хорошее улучшение" }
    | .unparseable =>
        { score := 1/2, improved_areas := ["небольшие улучшения"],
          still_needs_improvement := ["требуется больше практики"],
          feedback := "Умеренное улучшение после фидбека" }
    | .failure e =>
        { score := 0, improved_areas := [],
          still_needs_improvement := ["техническая ошибка анализа"],
          feedback := "Ошибка анализа: " ++ e }

/-! ## Code-readability analyzer (deterministic PEP8-style checker)

The regular expressions of the source are compiled by hand into
deterministic character scanners (all the character classes involved are
pairwise disjoint, so the scanners are equivalent to the regexes). -/

def isWordChar (c : Char) : Bool := c.isAlphanum || c = '_'

def isOpChar (c : Char) : Bool :=
  c = '+' || c = '-' || c = '*' || c = '/' || c = '=' || c = '<' || c = '>'

/-- `re.search(r'[a-zA-Z0-9_][\+\-\*\/\=\<\>][a-zA-Z0-9_]', l)` as a scan for
three consecutive characters word/op/word. -/
def hasOpTriple : List Char → Bool
  | a :: b :: c :: rest =>
      (isWordChar a && isOpChar b && isWordChar c) || hasOpTriple (b :: c :: rest)
  | _ => false

/-- `\s*=` -/
def wsEq : List Char → Bool
  | [] => false
  | c :: rest => if c = '=' then true else if c.isWhitespace then wsEq rest else false

/-- `[a-zA-Z]*\s*=` -/
def lettersWsEq : List Char → Bool
  | [] => false
  | c :: rest =>
      if c = '=' then true
      else if c.isAlpha then lettersWsEq rest
      else if c.isWhitespace then wsEq rest
      else false

/-- continuation of `[a-z]+[A-Z][a-zA-Z]*\s*=` after the first lowercase. -/
def camelAfterLower : List Char → Bool
  | [] => false
  | c :: rest =>
      if c.isLower then camelAfterLower rest
      else if c.isUpper then lettersWsEq rest
      else false

/-- `[a-z]+[A-Z][a-zA-Z]*\s*=` anchored at the head of the list. -/
def camelAt : List Char → Bool
  | [] => false
  | c :: rest => c.isLower && camelAfterLower rest

/-- `re.search(r'\b[a-z]+[A-Z][a-zA-Z]*\s*=', l)`: try every position that
sits at a word boundary. -/
def camelScan (prevIsWord : Bool) : List Char → Bool
  | [] => false
  | c :: rest => (!prevIsWord && camelAt (c :: rest)) || camelScan (isWordChar c) rest

/-- `\s*:` -/
def wsColon : List Char → Bool
  | [] => false
  | c :: rest => if c = ':' then true else if c.isWhitespace then wsColon rest else false

/-- `[^)]*\)\s*:` -/
def afterParen : List Char → Bool
  | [] => false
  | c :: rest => if c = ')' then wsColon rest else afterParen rest

/-- `\s*\([^)]*\)\s*:` -/
def wsParen : List Char → Bool
  | [] => false
  | c :: rest =>
      if c = '(' then afterParen rest
      else if c.isWhitespace then wsParen rest
      else false

/-- continuation of `\w+\s*\([^)]*\)\s*:` after the first word character. -/
def wordCont : List Char → Bool
  | [] => false
  | c :: rest =>
      if isWordChar c then wordCont rest
      else if c = '(' then afterParen rest
      else if c.isWhitespace then wsParen rest
      else false

/-- `\s*\w+\s*\([^)]*\)\s*:` where at least one word character must occur. -/
def wsWord : List Char → Bool
  | [] => false
  | c :: rest =>
      if c.isWhitespace then wsWord rest
      else if isWordChar c then wordCont rest
      else false

/-- `re.match(r'def\s+\w+\s*\([^)]*\)\s*:', l)` (anchored at the start). -/
def funcDefMatch (l : List Char) : Bool :=
  match l with
  | 'd' :: 'e' :: 'f' :: c :: rest => c.isWhitespace && wsWord (c :: rest)
  | _ => false

/-- `next_line.startswith('"""') or next_line.startswith("'''")`. -/
def docstringStart (l : List Char) : Bool :=
  match l with
  | a :: b :: c :: _ =>
      (a = '"' && b = '"' && c = '"') || (a = '\'' && b = '\'' && c = '\'')
  | _ => false

/-- The level-dependent severity weight table together with its
`.get(severity, {}).get(level, 0.5)` fallbacks. -/
def severityWeight (severity level : String) : ℚ :=
  if severity = "minor" then
    if level = "junior" then 1/5 else if level = "middle" then 1/2
    else if level = "senior" then 1 else 1/2
  else if severity = "moderate" then
    if level = "junior" then 1/2 else if level = "middle" then 1
    else if level = "senior" then 2 else 1/2
  else if severity = "severe" then
    if level = "junior" then 1 else if level = "middle" then 2
    else if level = "senior" then 3 else 1/2
  else 1/2

def readabilityWeightSum (level : String) (vs : List RViolation) : ℚ :=
  (vs.map (fun v => severityWeight v.severity level)).sum

/-- `CONFIG["penalty_weights"].get(level, ...).get("poor_code_readability", 3)`. -/
def pcrBase (pw : PenaltyWeights) (level : String) : ℚ :=
  pwGetD pw level "poor_code_readability" 3

/-- The four per-line checks of the first loop of `analyze_code_readability`
(line length, trailing whitespace, tabs, consecutive blank lines), for a
single line at 1-based index `i` whose predecessor is `prev?`.  The blank
check appends a violation at line `i` when the line and its predecessor are
both blank and no `multiple_blank_lines` violation was recorded for line
`i - 1`. -/
def lineChecks (prev? : Option (List Char)) (i : Nat) (line : List Char)
    (acc : List RViolation) : List RViolation :=
  let acc1 := if line.length > 79 then
      acc ++ [{ line := i, type := "line_too_long", severity := "minor" }] else acc
  let acc2 := if rstripChars line ≠ line ∧ ¬ (stripChars line).isEmpty then
      acc1 ++ [{ line := i, type := "trailing_whitespace", severity := "minor" }] else acc1
  let acc3 := if line.contains '\t' then
      acc2 ++ [{ line := i, type := "tabs_used", severity := "minor" }] else acc2
  let blankPair :=
    match prev? with
    | some prev => (stripChars line).isEmpty && (stripChars prev).isEmpty
    | none => false
  if blankPair && ! (acc3.any (fun v => v.line == i - 1 && v.type == "multiple_blank_lines")) then
    acc3 ++ [{ line := i, type := "multiple_blank_lines", severity := "minor" }]
  else acc3

def perLinePass (prev? : Option (List Char)) (i : Nat) (lines : List (List Char))
    (acc : List RViolation) : List RViolation :=
  match lines with
  | [] => acc
  | line :: rest => perLinePass (some line) (i + 1) rest (lineChecks prev? i line acc)

def operatorPass (i : Nat) (lines : List (List Char)) (acc : List RViolation) :
    List RViolation :=
  match lines with
  | [] => acc
  | line :: rest =>
      let line_to_check := line.takeWhile (fun c => c != '#')
      let acc2 :=
        if hasOpTriple line_to_check &&
            ! (line_to_check.contains '"' || line_to_check.contains '\'') then
          acc ++ [{ line := i, type := "missing_whitespace_around_operator",
                    severity := "minor" }]
        else acc
      operatorPass (i + 1) rest acc2

def namingPass (i : Nat) (lines : List (List Char)) (acc : List RViolation) :
    List RViolation :=
  match lines with
  | [] => acc
  | line :: rest =>
      let acc2 :=
        if camelScan false line && ! containsChars "class".data line then
          acc ++ [{ line := i, type := "naming_convention", severity := "moderate" }]
        else acc
      namingPass (i + 1) rest acc2

def docstringPass (level : String) (i : Nat) (lines : List (List Char))
    (acc : List RViolation) : List RViolation :=
  match lines with
  | [] => acc
  | line :: rest =>
      let acc2 :=
        if funcDefMatch (stripChars line) then
          match rest with
          | [] => acc
          | next :: _ =>
              if ! docstringStart (stripChars next) then
                acc ++ [{ line := i, type := "missing_docstring",
                          severity := if level = "middle" then "moderate" else "severe" }]
              else acc
        else acc
      docstringPass level (i + 1) rest acc2

def analyze_code_readability (pw : PenaltyWeights) (code : String) (level : String) :
    ReadabilityResult :=
  if code.data = [] ∨ (stripChars code.data).length < 10 then
    { violations := [], penalty_score := 0,
      feedback := "Код отсутствует или слишком короткий",
      readability_score := 1, violations_count := 0 }
  else
    let lines := splitOnChar '\n' code.data
    let v1 := perLinePass none 1 lines []
    let v2 := operatorPass 1 lines v1
    let v3 := namingPass 1 lines v2
    let violations :=
      if level = "middle" ∨ level = "senior" then docstringPass level 1 lines v3 else v3
    let total_penalty := readabilityWeightSum level violations
    let max_penalty := pcrBase pw level * 2
    let capped := min total_penalty max_penalty
    let violations_per_line : ℚ := (violations.length : ℚ) / ((max lines.length 1 : ℕ) : ℚ)
    let readability_score : ℚ := max 0 (1 - violations_per_line * (1/2))
    let feedback :=
      if violations.length = 0 then "Отличный код! Соответствует PEP8."
      else if violations.length ≤ 3 then "Код в целом хорош, но есть небольшие замечания по стилю."
      else if violations.length ≤ 7 then "Найдено несколько нарушений PEP8. Рекомендуется улучшить читаемость кода."
      else "Много нарушений стиля. Для этого уровня это недопустимо."
    { violations := violations, penalty_score := pyRound2 capped, feedback := feedback,
      readability_score := pyRound2 readability_score,
      violations_count := violations.length }

/-! ## Chat pipeline: the clarification-bonus stage -/

/-- `f"{context_type}_{context_id.split('_')[-1]}"`. -/
def clarification_context_key (context_type context_id : String) : String :=
  context_type ++ "_" ++ lastUnderscoreSegment context_id

/-- Stage 4 of the `/api/chat` pipeline: given the clarification detector's
classification and confidence for the incoming message, grant and record the
scoped bonus.  Returns the updated session and the granted bonus (0 when not
a high-confidence clarification). -/
def clarification_step (s : Session) (message : String) (context_type context_id : String)
    (is_clarification : Bool) (confidence : ℚ) : Session × ℚ :=
  if is_clarification ∧ confidence > 7/10 then
    let context_key := clarification_context_key context_type context_id
    let reqs := (lookA s.clarification_requests context_key).getD [] ++ [message]
    let question_count := reqs.length
    let clarification_bonus : ℚ := if question_count = 1 then 3 else 1
    ({ s with
        clarification_requests := updA s.clarification_requests context_key reqs,
        clarification_bonuses := updA s.clarification_bonuses context_key
          ((lookA s.clarification_bonuses context_key).getD 0 + clarification_bonus),
        clarification_analysis_history := s.clarification_analysis_history ++
          [{ message := message, is_clarification := true, confidence := confidence,
             bonus := clarification_bonus }] },
     clarification_bonus)
  else (s, 0)

/-- The bonus granted by `clarification_step` once the confidence gate has
passed: 3.0 when the message is the first request recorded in its scope,
1.0 afterwards. -/
def clarStepBonus (s : Session) (message context_type context_id : String) : ℚ :=
  if (((lookA s.clarification_requests
        (clarification_context_key context_type context_id)).getD []) ++ [message]).length = 1
  then 3 else 1

/-! ## `/api/submit-theory` -/

/-- The scoring and ledger effect of `submit_theory_answer`.  Oracle
outcomes are parameters: `adrOracle` for the ADR analysis, `agilityOracle`
for the learning-agility analysis, and `evalScore?` for the digits captured
by `re.search(r'ОЦЕНКА:\s*(\d+)', ...)` from the main evaluation reply
(`none` when the regex does not match, in which case the code falls back to
5).  The stored `enhanced_feedback` text is modelled by a non-empty
placeholder: the real string always starts with literal characters, and only
its non-emptiness is ever consumed.  The unknown-question error path returns
the session unchanged. -/
def submit_theory_answer (pw : PenaltyWeights) (s : Session) (question_id : ℤ)
    (answer : String) (adrOracle : OracleReply ScorePayload)
    (agilityOracle : OracleReply ScorePayload) (evalScore? : Option ℤ) : Session :=
  match s.theory_questions.find? (fun q => q.id == question_id) with
  | none => s
  | some q =>
      let has_previous_answer := (lookA s.previous_answers question_id).isSome
      let previous_answer := (lookA s.previous_answers question_id).getD ""
      let previous_feedback := (lookA s.feedback_received question_id).getD ""
      let adr_score := (calculate_adr_with_llm answer q.question q.expected_topics adrOracle).adr_score
      let base_score : ℚ := ((min 10 (max 0 (evalScore?.getD 5)) : ℤ) : ℚ) / 10
      let learning_agility_score : ℚ :=
        if has_previous_answer ∧ previous_feedback ≠ "" then
          (calculate_learning_agility previous_answer answer previous_feedback agilityOracle).score
        else 0
      let final_score : ℚ :=
        if adr_score > 7/10 then min 1 (base_score + 3/20)
        else if adr_score > 3/10 then max 0 (base_score - 1/10)
        else max 0 (base_score - 1/4)
      let penalties :=
        if adr_score < 1/4 then
          s.penalties ++ [{ type := "poor_communication",
                            points := pwStrictD pw s.level "poor_communication",
                            reason := "Слишком поверхностный ответ" }]
        else s.penalties
      { s with
        penalties := penalties,
        theory_scores := updA s.theory_scores question_id final_score,
        previous_answers := updA s.previous_answers question_id answer,
        feedback_received :=
          if has_previous_answer ∧ learning_agility_score > 3/10 then
            updA s.feedback_received question_id "enhanced feedback"
          else s.feedback_received,
        learning_agility_scores :=
          updA s.learning_agility_scores question_id learning_agility_score,
        current_theory_idx := s.current_theory_idx + 1 }

/-! ## `/api/submit-code` -/

/-- The state effect of `submit_code`.  The sandbox (`run_tests`) is the
external collaborator; its per-test pass/fail outcomes are the
`testsPassed` parameter.  The unknown-task error path returns the session
unchanged. -/
def submit_code (pw : PenaltyWeights) (s : Session) (task_id : ℤ) (code : String)
    (testsPassed : List Bool) : Session :=
  match s.coding_tasks.find? (fun t => t.id == task_id) with
  | none => s
  | some task =>
      let task_key := "coding_" ++ toString task_id
      let attempt_number := (lookA s.attempts task_key).getD 0 + 1
      let attempts := updA s.attempts task_key attempt_number
      let penalties :=
        if attempt_number > 1 then
          s.penalties ++ [{ type := "multiple_attempts",
                            points := pwIndexD pw s.level "multiple_attempts",
                            reason := "Попытка для задачи " ++ task.title }]
        else s.penalties
      let readability_analysis := analyze_code_readability pw code s.level
      let penalties2 :=
        if readability_analysis.penalty_score > 0 then
          penalties ++ [{ type := "poor_code_readability",
                          points := readability_analysis.penalty_score,
                          reason := "Нарушения PEP8 в задаче " ++ task.title }]
        else penalties
      let passed := (testsPassed.filter (fun b => b)).length
      let total := testsPassed.length
      let score : ℚ := if total > 0 then (passed : ℚ) / (total : ℚ) else 0
      { s with
        attempts := attempts,
        penalties := penalties2,
        code_readability_scores := updA s.code_readability_scores task_id readability_analysis,
        coding_scores := updA s.coding_scores task_id score,
        current_task_idx := if passed = total then s.current_task_idx + 1 else s.current_task_idx }

/-! ## `/api/hint` -/

structure HintResponse where
  success : Bool
  error : Option String := none
  hint : Option String := none
  penalty_applied : Option Bool := none
  hints_remaining : Option Nat := none
  deriving DecidableEq

def get_hint (pw : PenaltyWeights) (s : Session) : Session × HintResponse :=
  match s.coding_tasks.get? s.current_task_idx with
  | none => (s, { success := false, error := some "Нет текущей задачи" })
  | some task =>
      let hints := task.hints
      let task_key := "hint_" ++ toString task.id
      let hint_idx := (lookA s.attempts task_key).getD 0
      if hints.length ≤ hint_idx then
        (s, { success := true,
              hint := some "Больше подсказок нет. Попробуй решить самостоятельно!" })
      else
        ({ s with
            penalties := s.penalties ++
              [{ type := "hint_used",
                 points := pwIndexD pw s.level "hint_used",
                 reason := "Подсказка для задачи " ++ task.title }],
            attempts := updA s.attempts task_key (hint_idx + 1) },
         { success := true,
           hint := some ("💡 " ++ ((hints.get? hint_idx).getD "")),
           penalty_applied := some true,
           hints_remaining := some (hints.length - hint_idx - 1) })

/-! ## Committee decision engine (`conduct_agent_meeting`) -/

/-- Deriving a categorical opinion from one persona's free-text verdict:
case-insensitive substring matches checked in priority order. -/
def parse_decision (response : String) : String :=
  let up := upperChars response.data
  if containsChars "STRONG_HIRE".data up then "strong_hire"
  else if containsChars "NO_HIRE".data up then "no_hire"
  else if containsChars "MAYBE".data up then "maybe"
  else "hire"

/-- The fixed opinion-to-score mapping written into `agent_scores`. -/
def decision_score (decision : String) : ℚ :=
  if decision = "strong_hire" then 95
  else if decision = "no_hire" then 30
  else if decision = "maybe" then 60
  else 80

/-- `any(v.get("severity") == "critical" for v in conflict_behavior_violations)`. -/
def has_critical_violation (s : Session) : Bool :=
  s.conflict_behavior_violations.any (fun v => v.severity == some "critical")

/-- The final verdict of `conduct_agent_meeting`, as a function of the
session and the three personas' free-text replies. -/
def final_decision (s : Session) (responses : List String) : String :=
  let decisions := responses.map parse_decision
  if has_critical_violation s then "NO HIRE ⛔"
  else if 2 ≤ decisions.count "strong_hire" then "STRONG HIRE ⭐"
  else if 2 ≤ decisions.count "no_hire" then "NO HIRE ❌"
  else if 2 ≤ decisions.count "hire" + decisions.count "strong_hire" then "HIRE ✅"
  else "MAYBE 🤔"

/-- The numeric `final_score` computed by `conduct_agent_meeting`, exactly in
the order of the source: ledger sum, coding/theory means, base score, the two
bonuses, subtraction, clamp to `[0, 100]`.  (The dict returned over HTTP
carries `round(final_score)` of this value; the note/report strings built
alongside do not feed back into it.) -/
def conduct_agent_meeting_score (s : Session) : ℚ :=
  let total_penalties := (s.penalties.map Penalty.points).sum
  let coding_avg : ℚ :=
    if s.coding_scores.isEmpty then 0
    else (s.coding_scores.map Prod.snd).sum / ((max s.coding_scores.length 1 : ℕ) : ℚ)
  let theory_avg : ℚ :=
    if s.theory_scores.isEmpty then 0
    else (s.theory_scores.map Prod.snd).sum / ((max s.theory_scores.length 1 : ℕ) : ℚ)
  let base_score := (coding_avg * (1/2) + theory_avg * (3/10) + 1/5) * 100
  let learning_bonus : ℚ :=
    if ¬ s.learning_agility_scores.isEmpty then
      let avg := (s.learning_agility_scores.map Prod.snd).sum /
        (s.learning_agility_scores.length : ℚ)
      if avg > 7/10 then min 10 (avg * 10) else 0
    else 0
  let clarification_bonus : ℚ :=
    if ¬ s.clarification_bonuses.isEmpty then (s.clarification_bonuses.map Prod.snd).sum
    else 0
  let final_score := base_score - total_penalties + (learning_bonus + clarification_bonus)
  max 0 (min 100 final_score)

/-! ## Specification-side definitions (for refinement statements)

These restate the spec's wording, to be compared with the definitions
translated from the source. -/

def clamp100 (x : ℚ) : ℚ := max 0 (min 100 x)

def ledgerSum (s : Session) : ℚ := (s.penalties.map Penalty.points).sum

def codingMean (s : Session) : ℚ :=
  if s.coding_scores.isEmpty then 0
  else (s.coding_scores.map Prod.snd).sum / ((max s.coding_scores.length 1 : ℕ) : ℚ)

def theoryMean (s : Session) : ℚ :=
  if s.theory_scores.isEmpty then 0
  else (s.theory_scores.map Prod.snd).sum / ((max s.theory_scores.length 1 : ℕ) : ℚ)

/-- Spec: base = (mean coding × 0.5 + mean theory × 0.3 + 0.2) × 100. -/
def specBase (s : Session) : ℚ :=
  (codingMean s * (1/2) + theoryMean s * (3/10) + 1/5) * 100

/-- Spec: learning-agility mean > 0.7 contributes min(10, mean × 10);
all accumulated clarification bonuses sum in unchanged. -/
def specBonuses (s : Session) : ℚ :=
  (if ¬ s.learning_agility_scores.isEmpty ∧
      (s.learning_agility_scores.map Prod.snd).sum /
        (s.learning_agility_scores.length : ℚ) > 7/10 then
    min 10 ((s.learning_agility_scores.map Prod.snd).sum /
      (s.learning_agility_scores.length : ℚ) * 10)
  else 0) +
  (s.clarification_bonuses.map Prod.snd).sum

/-- The pre-clamp score `base − sum(ledger) + sum(bonuses)`. -/
def rawMeetingScore (s : Session) : ℚ := specBase s - ledgerSum s + specBonuses s

def appendPenalty (s : Session) (p : Penalty) : Session :=
  { s with penalties := s.penalties ++ [p] }

/-- Spec §4.8 vote, for the critical-free case: ≥2 strong_hire → top accept
tier; else ≥2 no_hire → reject; else ≥2 (hire ∪ strong_hire) → accept; else
the undecided outcome. -/
def committee_vote_spec (decisions : List String) : String :=
  if 2 ≤ decisions.count "strong_hire" then "STRONG HIRE ⭐"
  else if 2 ≤ decisions.count "no_hire" then "NO HIRE ❌"
  else if 2 ≤ (decisions.filter (fun d => d == "hire" || d == "strong_hire")).length then
    "HIRE ✅"
  else "MAYBE 🤔"

/-- Spec-side theory score (claim C10): the 0–10 oracle score rescaled to
[0,1], shifted by the ADR-dependent delta, clamped to [0,1]. -/
def theory_score_spec (evalScore? : Option ℤ) (adr : ℚ) : ℚ :=
  max 0 (min 1 (((min 10 (max 0 (evalScore?.getD 5)) : ℤ) : ℚ) / 10 +
    (if adr > 7/10 then 3/20 else if adr > 3/10 then -(1/10) else -(1/4))))

/-! # Theorems -/

/-! ## Dictionary and rounding lemmas -/

theorem lookA_updA_self {α β : Type} [DecidableEq α] (l : List (α × β)) (k : α) (v : β) :
    lookA (updA l k v) k = some v := by
  induction l with
  | nil => simp [lookA, updA]
  | cons hd tl ih =>
      obtain ⟨k0, v0⟩ := hd
      by_cases h : k0 = k
      · simp [lookA, updA, h]
      · simp [lookA, updA, h, ih]

theorem lookA_updA_ne {α β : Type} [DecidableEq α] (l : List (α × β)) (k k' : α) (v : β)
    (h : k' ≠ k) : lookA (updA l k v) k' = lookA l k' := by
  induction l with
  | nil => simp [lookA, updA, Ne.symm h]
  | cons hd tl ih =>
      obtain ⟨k0, v0⟩ := hd
      by_cases h0 : k0 = k
      · subst h0
        simp [lookA, updA, Ne.symm h]
      · by_cases h1 : k0 = k'
        · simp [lookA, updA, h0, h1, h]
        · simp [lookA, updA, h0, h1, ih]

theorem pyRound2_tenthInt {q : ℚ} (h : TenthInt q) : pyRound2 q = q := by
  obtain ⟨k, hk⟩ := h
  have hq : q = (k : ℚ) / 10 := by
    field_simp at hk ⊢
    linarith
  have h100 : q * 100 = ((10 * k : ℤ) : ℚ) := by
    push_cast
    rw [hq]
    ring
  unfold pyRound2 pyRoundHalfEven
  rw [h100, Int.floor_intCast]
  norm_num
  rw [hq]
  ring

theorem TenthInt.min {a b : ℚ} (ha : TenthInt a) (hb : TenthInt b) :
    TenthInt (Min.min a b) := by
  rcases le_total a b with h | h
  · rwa [min_eq_left h]
  · rwa [min_eq_right h]

theorem TenthInt.add {a b : ℚ} (ha : TenthInt a) (hb : TenthInt b) :
    TenthInt (a + b) := by
  obtain ⟨k, hk⟩ := ha
  obtain ⟨m, hm⟩ := hb
  exact ⟨k + m, by push_cast; linarith⟩

theorem severityWeight_nonneg (severity level : String) : 0 ≤ severityWeight severity level := by
  unfold severityWeight
  repeat' split
  all_goals norm_num

theorem severityWeight_tenthInt (severity level : String) :
    TenthInt (severityWeight severity level) := by
  have t2 : TenthInt (1/5 : ℚ) := ⟨2, by norm_num⟩
  have t5 : TenthInt (1/2 : ℚ) := ⟨5, by norm_num⟩
  have t10 : TenthInt (1 : ℚ) := ⟨10, by norm_num⟩
  have t20 : TenthInt (2 : ℚ) := ⟨20, by norm_num⟩
  have t30 : TenthInt (3 : ℚ) := ⟨30, by norm_num⟩
  unfold severityWeight
  repeat' split
  all_goals first
    | exact t2
    | exact t5
    | exact t10
    | exact t20
    | exact t30

theorem readabilityWeightSum_tenthInt (level : String) (vs : List RViolation) :
    TenthInt (readabilityWeightSum level vs) := by
  induction vs with
  | nil => exact ⟨0, by simp [readabilityWeightSum]⟩
  | cons v t ih =>
      have h := (severityWeight_tenthInt v.severity level).add ih
      simpa [readabilityWeightSum, add_comm] using h

theorem readabilityWeightSum_nonneg (level : String) (vs : List RViolation) :
    0 ≤ readabilityWeightSum level vs := by
  apply List.sum_nonneg
  intro x hx
  obtain ⟨v, _, rfl⟩ := List.mem_map.mp hx
  exact severityWeight_nonneg v.severity level

/-- The `min(10, max(0, z)) / 10` rescaling used by every 0–10 oracle score
lands in [0, 1]. -/
theorem clamp10_div_bounds (z : ℤ) :
    0 ≤ ((min 10 (max 0 z) : ℤ) : ℚ) / 10 ∧ ((min 10 (max 0 z) : ℤ) : ℚ) / 10 ≤ 1 := by
  constructor
  · apply div_nonneg _ (by norm_num)
    exact_mod_cast le_min (by norm_num) (le_max_left 0 z)
  · rw [div_le_one (by norm_num)]
    exact_mod_cast min_le_left 10 (max 0 z)

/-- The learning-agility analyzer always returns a score in [0, 1]
(short-circuit 0, parsed clamp, unparseable 0.5, failure 0). -/
theorem learning_agility_score_bounds (p n f : String) (o : OracleReply ScorePayload) :
    0 ≤ (calculate_learning_agility p n f o).score ∧
      (calculate_learning_agility p n f o).score ≤ 1 := by
  unfold calculate_learning_agility
  split
  · constructor <;> norm_num
  · cases o with
    | parsed r => exact clamp10_div_bounds (r.score.getD 5)
    | unparseable => constructor <;> norm_num
    | failure e => constructor <;> norm_num

/-- `count("hire") + count("strong_hire")` agrees with the spec's
"at least 2 in (hire ∪ strong_hire)" filter. -/
theorem count_hire_union (l : List String) :
    (l.filter (fun d => d == "hire" || d == "strong_hire")).length =
      l.count "hire" + l.count "strong_hire" := by
  induction l with
  | nil => simp
  | cons a t ih =>
      by_cases h1 : a = "hire"
      · subst h1
        simp [List.count_cons, ih]
        omega
      · by_cases h2 : a = "strong_hire"
        · subst h2
          simp [List.count_cons, ih]
          omega
        · simp [List.count_cons, h1, h2, ih]

/-! ## Claim C2 -/

/-- Claim C2: if the conflict-behavior violation history contains a
`critical`-severity entry, the committee's final verdict is the forced
reject outcome regardless of the three personas' replies (even three
STRONG_HIRE replies); with no critical entry the verdict follows the
spec's vote rules applied to the three parsed opinions. -/
theorem committee_verdict_rule (s : Session) (r1 r2 r3 : String) :
    (has_critical_violation s = true → final_decision s [r1, r2, r3] = "NO HIRE ⛔") ∧
    (has_critical_violation s = false →
      final_decision s [r1, r2, r3] =
        committee_vote_spec [parse_decision r1, parse_decision r2, parse_decision r3]) := by
  constructor
  · intro h
    simp [final_decision, h]
  · intro h
    simp only [final_decision, committee_vote_spec, List.map, h, Bool.false_eq_true,
      if_false, count_hire_union]

def criticalSession : Session :=
  { level := "senior",
    conflict_behavior_violations :=
      [{ is_violation := true, penalty_score := 25 * (13/10), behavior_type := "insult",
         severity := some "critical", reason := "грубость" }] }

theorem committee_verdict_rule_witness :
    final_decision criticalSession ["STRONG_HIRE", "STRONG_HIRE", "STRONG_HIRE"] =
      "NO HIRE ⛔" :=
  (committee_verdict_rule criticalSession "STRONG_HIRE" "STRONG_HIRE" "STRONG_HIRE").1
    (by decide)

/-! ## Claim C3 -/

/-- Claim C3: a chat turn classified as a clarification question with
confidence > 0.7 earns 3.0 when it is the first qualifying message in its
(context-type, context-id) scope and 1.0 afterwards, accumulated into that
scope's bonus total; scopes with a different key are untouched, so a new
scope starts the 3.0/1.0 count afresh.  (Inside `chat`, the scope key is
`context_type ++ "_" ++` the last `_`-segment of `context_id`, and the
(context-type, context-id) pairs produced by `chat` map to it injectively.) -/
theorem clarification_step_pos (s : Session) (message context_type context_id : String)
    (confidence : ℚ) (hconf : confidence > 7/10) :
    clarification_step s message context_type context_id true confidence =
      ({ s with
          clarification_requests := updA s.clarification_requests
            (clarification_context_key context_type context_id)
            ((lookA s.clarification_requests
              (clarification_context_key context_type context_id)).getD [] ++ [message]),
          clarification_bonuses := updA s.clarification_bonuses
            (clarification_context_key context_type context_id)
            ((lookA s.clarification_bonuses
              (clarification_context_key context_type context_id)).getD 0 +
              clarStepBonus s message context_type context_id),
          clarification_analysis_history := s.clarification_analysis_history ++
            [{ message := message, is_clarification := true, confidence := confidence,
               bonus := clarStepBonus s message context_type context_id }] },
       clarStepBonus s message context_type context_id) := by
  unfold clarification_step clarStepBonus
  rw [if_pos ⟨rfl, hconf⟩]

theorem clarification_bonus_scoped (s : Session) (message context_type context_id : String)
    (confidence : ℚ) (hconf : confidence > 7/10) :
    (clarification_step s message context_type context_id true confidence).2 =
      (if ((lookA s.clarification_requests
            (clarification_context_key context_type context_id)).getD []).length = 0
       then 3 else 1) ∧
    lookA (clarification_step s message context_type context_id true confidence).1.clarification_bonuses
        (clarification_context_key context_type context_id) =
      some ((lookA s.clarification_bonuses
          (clarification_context_key context_type context_id)).getD 0 +
        (clarification_step s message context_type context_id true confidence).2) ∧
    (∀ k, k ≠ clarification_context_key context_type context_id →
      lookA (clarification_step s message context_type context_id true confidence).1.clarification_bonuses k =
          lookA s.clarification_bonuses k ∧
        lookA (clarification_step s message context_type context_id true confidence).1.clarification_requests k =
          lookA s.clarification_requests k) := by
  rw [clarification_step_pos s message context_type context_id confidence hconf]
  refine ⟨?_, ?_, ?_⟩
  · unfold clarStepBonus
    simp only [List.length_append, List.length_cons, List.length_nil, Nat.zero_add]
    by_cases h : ((lookA s.clarification_requests
        (clarification_context_key context_type context_id)).getD []).length = 0
    · rw [if_pos (by omega), if_pos h]
    · rw [if_neg (by omega), if_neg h]
  · exact lookA_updA_self _ _ _
  · intro k hk
    exact ⟨lookA_updA_ne _ _ _ _ hk, lookA_updA_ne _ _ _ _ hk⟩

theorem clarification_bonus_scoped_witness :
    (clarification_step ({} : Session) "Какой диапазон значений на входе?" "theory" "theory_5"
        true (4/5)).2 = 3 := by
  have h := clarification_bonus_scoped ({} : Session) "Какой диапазон значений на входе?"
    "theory" "theory_5" (4/5) (by norm_num)
  simpa [lookA] using h.1

/-! ## Claim C4 -/

/-- Claim C4: a message whose trimmed length is below 5 characters makes
both the context-switching and the conflict-behavior analyzer return their
no-violation verdict with penalty 0.0 and severity none (for the
conflict analyzer the returned dict omits the `severity` key, which every
consumer reads back as `"none"` via `.get`), with the oracle-consulted flag
false; the result is literally the same for every oracle value, so it is
independent of the oracle. -/
theorem short_message_short_circuit (pw : PenaltyWeights) (message : String)
    (history : List (String × String)) (ctx level : String)
    (o1 : OracleReply CtxPayload) (o2 : OracleReply ConflictPayload)
    (h : (stripChars message.data).length < 5) :
    analyze_context_switching pw message history ctx level o1 =
      ({ is_violation := false, penalty_score := 0,
         reason := "Сообщение слишком короткое для анализа", severity := "none" }, false) ∧
    analyze_conflict_behavior message history level o2 =
      ({ is_violation := false, penalty_score := 0, behavior_type := "none",
         severity := none, reason := "Сообщение слишком короткое" }, false) := by
  constructor
  · unfold analyze_context_switching
    rw [if_pos (Or.inr h)]
  · unfold analyze_conflict_behavior
    rw [if_pos (Or.inr h)]

theorem short_message_short_circuit_witness :
    (analyze_context_switching [] "да" [] "Введение в интервью" "junior"
        OracleReply.unparseable).2 = false ∧
    (analyze_conflict_behavior "да" [] "junior" OracleReply.unparseable).1.penalty_score = 0 := by
  have h := short_message_short_circuit [] "да" [] "Введение в интервью" "junior"
    OracleReply.unparseable OracleReply.unparseable (by decide)
  exact ⟨by rw [h.1], by rw [h.2]⟩

/-! ## Claim C1 -/

/-- The monolithic meeting computation agrees with the spec-side composition
`clamp(base − ledger sum + bonuses, 0, 100)`; in particular the ledger sum
enters exactly once and no per-category subtotal is re-added. -/
theorem meeting_score_eq_clamp (s : Session) :
    conduct_agent_meeting_score s = clamp100 (rawMeetingScore s) := by
  unfold conduct_agent_meeting_score clamp100 rawMeetingScore specBase specBonuses
    ledgerSum codingMean theoryMean
  by_cases h1 : s.learning_agility_scores.isEmpty
  · by_cases h2 : s.clarification_bonuses.isEmpty
    · have h2' : s.clarification_bonuses = [] := List.isEmpty_iff.mp h2
      simp [h1, h2, h2']
    · simp [h1, h2]
  · by_cases h3 : (s.learning_agility_scores.map Prod.snd).sum /
        (s.learning_agility_scores.length : ℚ) > 7/10
    · by_cases h2 : s.clarification_bonuses.isEmpty
      · have h2' : s.clarification_bonuses = [] := List.isEmpty_iff.mp h2
        simp [h1, h2, h2', h3]
      · simp [h1, h2, h3]
    · by_cases h2 : s.clarification_bonuses.isEmpty
      · have h2' : s.clarification_bonuses = [] := List.isEmpty_iff.mp h2
        simp [h1, h2, h2', h3]
      · simp [h1, h2, h3]

/-- Claim C1 (amended): the final numeric score equals
`clamp(base − sum(ledger) + sum(bonuses), 0, 100)` with
`base = (mean coding × 0.5 + mean theory × 0.3 + 0.2) × 100`, and appending
one more penalty of `p ≥ 0` points changes the final score by exactly `−p`
whenever the clamp is inactive (the pre-clamp score stays inside [0, 100]
before and after); the ledger sum is applied exactly once and no category
subtotal is re-added.  At the clamp boundary the change is truncated, which
is what the counterexample exhibits. -/
theorem final_score_formula_and_delta (s : Session) (p : Penalty) :
    conduct_agent_meeting_score s = clamp100 (rawMeetingScore s) ∧
    (0 ≤ p.points → 0 ≤ rawMeetingScore s - p.points → rawMeetingScore s ≤ 100 →
      conduct_agent_meeting_score (appendPenalty s p) =
        conduct_agent_meeting_score s - p.points) := by
  refine ⟨meeting_score_eq_clamp s, ?_⟩
  intro hp h0 h100
  have hraw : rawMeetingScore (appendPenalty s p) = rawMeetingScore s - p.points := by
    unfold rawMeetingScore specBase specBonuses ledgerSum codingMean theoryMean appendPenalty
    simp [List.map_append, List.sum_append]
    ring
  have e1 : clamp100 (rawMeetingScore s) = rawMeetingScore s := by
    unfold clamp100
    rw [min_eq_right h100, max_eq_right (by linarith)]
  have e2 : clamp100 (rawMeetingScore s - p.points) = rawMeetingScore s - p.points := by
    unfold clamp100
    rw [min_eq_right (by linarith), max_eq_right h0]
  rw [meeting_score_eq_clamp, meeting_score_eq_clamp, hraw, e1, e2]

def steadySession : Session :=
  { level := "junior",
    coding_scores := [(1, 1)],
    theory_scores := [(10, 1/2)],
    penalties := [{ type := "hint_used", points := 5, reason := "подсказка" }] }

def deltaPenalty : Penalty :=
  { type := "context_switching", points := 10, reason := "смена темы" }

theorem final_score_formula_and_delta_witness :
    conduct_agent_meeting_score (appendPenalty steadySession deltaPenalty) =
      conduct_agent_meeting_score steadySession - 10 := by
  have h := (final_score_formula_and_delta steadySession deltaPenalty).2
    (by norm_num [deltaPenalty])
    (by norm_num [rawMeetingScore, specBase, specBonuses, ledgerSum, codingMean,
      theoryMean, steadySession, deltaPenalty])
    (by norm_num [rawMeetingScore, specBase, specBonuses, ledgerSum, codingMean,
      theoryMean, steadySession])
  simpa [deltaPenalty] using h

def overdrawnSession : Session :=
  { level := "junior",
    penalties := [{ type := "conflict_behavior", points := 25, reason := "грубость" }] }

def overdrawnExtraPenalty : Penalty :=
  { type := "hint_used", points := 5, reason := "подсказка" }

/-- Claim C1 counterexample: with no recorded scores the base is 20, the
ledger already holds 25 points, so the clamped final score is 0 both before
and after appending 5 more points — the append changes `final_score` by 0,
not by −5. -/
theorem final_score_delta_counterexample :
    conduct_agent_meeting_score (appendPenalty overdrawnSession overdrawnExtraPenalty) ≠
      conduct_agent_meeting_score overdrawnSession - overdrawnExtraPenalty.points := by
  norm_num [conduct_agent_meeting_score, appendPenalty, overdrawnSession,
    overdrawnExtraPenalty]

/-! ## Claim C8 -/

/-- Claim C8 (amended): once all hints of the current task are exhausted,
`get_hint` returns the fixed no-more-hints response — whose
`penalty_applied` key is ABSENT (`none`) rather than `false` — appends
nothing to the ledger and leaves the whole session (ledger and hint
counter) unchanged, hence repeated calls return the same response and keep
the state fixed. -/
theorem hint_exhausted_no_penalty_idempotent (pw : PenaltyWeights) (s : Session) (task : Task)
    (hTask : s.coding_tasks.get? s.current_task_idx = some task)
    (hEx : task.hints.length ≤ (lookA s.attempts ("hint_" ++ toString task.id)).getD 0) :
    get_hint pw s =
      (s, { success := true,
            hint := some "Больше подсказок нет. Попробуй решить самостоятельно!" }) ∧
    get_hint pw (get_hint pw s).1 = get_hint pw s := by
  have h1 : get_hint pw s =
      (s, { success := true,
            hint := some "Больше подсказок нет. Попробуй решить самостоятельно!" }) := by
    simp only [get_hint, hTask]
    rw [if_pos hEx]
  exact ⟨h1, by rw [h1]; exact h1⟩

def exhaustedHintSession : Session :=
  { level := "junior",
    coding_tasks := [{ id := 1, title := "Сумма двух чисел",
                       hints := ["присмотрись к оператору сложения"] }],
    current_task_idx := 0,
    attempts := [("hint_1", 1)] }

theorem hint_exhausted_no_penalty_idempotent_witness :
    (get_hint [] exhaustedHintSession).1 = exhaustedHintSession ∧
    (get_hint [] exhaustedHintSession).2.penalty_applied = none := by
  have h := hint_exhausted_no_penalty_idempotent [] exhaustedHintSession
    { id := 1, title := "Сумма двух чисел",
      hints := ["присмотрись к оператору сложения"] }
    (by decide) (by decide)
  exact ⟨by rw [h.1], by rw [h.1]⟩

/-- Claim C8 counterexample: the exhausted-hints response does not indicate
`penalty_applied: false`; the field is simply absent from the returned
dict (only the hint-served branch ever sets it, to `true`). -/
theorem hint_exhausted_response_counterexample :
    (get_hint [] exhaustedHintSession).2.penalty_applied ≠ some false := by decide

/-! ## Claim C9 -/

/-- Claim C9: on every submission to a known task — regardless of the test
outcomes — the first submission appends no `multiple_attempts` penalty and
every later one appends exactly one such penalty, carrying the
level-specific `multiple_attempts` weight.  (The only other ledger write of
`submit_code` has type `poor_code_readability`, which the type filter
excludes.) -/
theorem submit_code_attempt_penalty (pw : PenaltyWeights) (s : Session) (task : Task)
    (task_id : ℤ) (code : String) (testsPassed : List Bool)
    (hTask : s.coding_tasks.find? (fun t => t.id == task_id) = some task) :
    ((lookA s.attempts ("coding_" ++ toString task_id)).getD 0 = 0 →
      (submit_code pw s task_id code testsPassed).penalties.filter
          (fun p => p.type == "multiple_attempts") =
        s.penalties.filter (fun p => p.type == "multiple_attempts")) ∧
    (0 < (lookA s.attempts ("coding_" ++ toString task_id)).getD 0 →
      (submit_code pw s task_id code testsPassed).penalties.filter
          (fun p => p.type == "multiple_attempts") =
        s.penalties.filter (fun p => p.type == "multiple_attempts") ++
          [{ type := "multiple_attempts",
             points := pwIndexD pw s.level "multiple_attempts",
             reason := "Попытка для задачи " ++ task.title }]) ∧
    (∀ w, pwIndex? pw s.level "multiple_attempts" = some w →
      pwIndexD pw s.level "multiple_attempts" = w) := by
  refine ⟨?_, ?_, ?_⟩
  · intro hn
    simp only [submit_code, hTask, hn]
    by_cases hr : (analyze_code_readability pw code s.level).penalty_score > 0
    · rw [if_pos hr, if_neg (show ¬(0 + 1 > 1) by norm_num)]
      simp [List.filter_append]
    · rw [if_neg hr, if_neg (show ¬(0 + 1 > 1) by norm_num)]
  · intro hn
    simp only [submit_code, hTask]
    have hcond : (lookA s.attempts ("coding_" ++ toString task_id)).getD 0 + 1 > 1 := by
      omega
    by_cases hr : (analyze_code_readability pw code s.level).penalty_score > 0
    · rw [if_pos hr, if_pos hcond]
      simp [List.filter_append]
    · rw [if_neg hr, if_pos hcond]
      simp [List.filter_append]
  · intro w hw
    unfold pwIndexD
    unfold pwIndex? at hw
    rw [hw]
    rfl

def resubmitSession : Session :=
  { level := "middle",
    coding_tasks := [{ id := 7, title := "Парсинг строки", hints := [] }],
    attempts := [("coding_7", 1)] }

theorem submit_code_attempt_penalty_witness :
    ((submit_code [("middle", [("multiple_attempts", 4)])] resubmitSession 7
        "print(1)" [false]).penalties.filter
          (fun p => p.type == "multiple_attempts")).length = 1 := by
  have h := submit_code_attempt_penalty [("middle", [("multiple_attempts", 4)])]
    resubmitSession { id := 7, title := "Парсинг строки", hints := [] } 7 "print(1)" [false]
    (by decide)
  rw [h.2.1 (by decide)]
  simp [resubmitSession]

/-! ## Claim C10 -/

/-- Claim C10: for every theory submission the stored score is the oracle's
0–10 score rescaled to [0,1], adjusted by the ADR value (+0.15 when
ADR > 0.7, −0.1 when 0.3 < ADR ≤ 0.7, −0.25 when ADR ≤ 0.3) and clamped to
[0,1]; and exactly one `poor_communication` penalty with the level-specific
weight is appended precisely when ADR < 0.25. -/
theorem submit_theory_score_and_adr_penalty (pw : PenaltyWeights) (s : Session)
    (q : TheoryQuestion) (question_id : ℤ) (answer : String)
    (adrOracle agilityOracle : OracleReply ScorePayload) (evalScore? : Option ℤ)
    (hq : s.theory_questions.find? (fun q0 => q0.id == question_id) = some q) :
    lookA (submit_theory_answer pw s question_id answer adrOracle agilityOracle
        evalScore?).theory_scores question_id =
      some (theory_score_spec evalScore?
        (calculate_adr_with_llm answer q.question q.expected_topics adrOracle).adr_score) ∧
    ((calculate_adr_with_llm answer q.question q.expected_topics adrOracle).adr_score < 1/4 →
      (submit_theory_answer pw s question_id answer adrOracle agilityOracle
          evalScore?).penalties =
        s.penalties ++ [{ type := "poor_communication",
                          points := pwStrictD pw s.level "poor_communication",
                          reason := "Слишком поверхностный ответ" }]) ∧
    (¬ (calculate_adr_with_llm answer q.question q.expected_topics adrOracle).adr_score < 1/4 →
      (submit_theory_answer pw s question_id answer adrOracle agilityOracle
          evalScore?).penalties = s.penalties) ∧
    (∀ w, pwStrict? pw s.level "poor_communication" = some w →
      pwStrictD pw s.level "poor_communication" = w) := by
  have hbase := clamp10_div_bounds (evalScore?.getD 5)
  refine ⟨?_, ?_, ?_, ?_⟩
  · simp only [submit_theory_answer, hq]
    rw [lookA_updA_self]
    congr 1
    unfold theory_score_spec
    set b : ℚ := ((min 10 (max 0 (evalScore?.getD 5)) : ℤ) : ℚ) / 10 with hb
    set adr := (calculate_adr_with_llm answer q.question q.expected_topics adrOracle).adr_score
      with hadr
    by_cases h1 : adr > 7/10
    · rw [if_pos h1, if_pos h1, max_eq_right]
      exact le_min (by norm_num) (by linarith [hbase.1])
    · rw [if_neg h1, if_neg h1]
      by_cases h2 : adr > 3/10
      · rw [if_pos h2, if_pos h2,
          min_eq_right (show b + -(1/10) ≤ 1 by linarith [hbase.2])]
        congr 1
        ring
      · rw [if_neg h2, if_neg h2,
          min_eq_right (show b + -(1/4) ≤ 1 by linarith [hbase.2])]
        congr 1
        ring
  · intro h
    simp only [submit_theory_answer, hq]
    rw [if_pos h]
  · intro h
    simp only [submit_theory_answer, hq]
    rw [if_neg h]
  · intro w hw
    unfold pwStrictD
    unfold pwStrict? at hw
    rw [hw]
    rfl

def shallowTheorySession : Session :=
  { level := "junior",
    theory_questions := [{ id := 3, category := "БД",
                           question := "Что такое индекс в базе данных?" }] }

theorem submit_theory_score_and_adr_penalty_witness :
    lookA (submit_theory_answer [("junior", [("poor_communication", 4)])]
        shallowTheorySession 3 "Ну это что-то там в базе"
        (OracleReply.parsed { score := some 1 }) OracleReply.unparseable
        (some 6)).theory_scores 3 = some (7/20) := by
  have h := submit_theory_score_and_adr_penalty [("junior", [("poor_communication", 4)])]
    shallowTheorySession
    { id := 3, category := "БД", question := "Что такое индекс в базе данных?" }
    3 "Ну это что-то там в базе" (OracleReply.parsed { score := some 1 })
    OracleReply.unparseable (some 6) (by decide)
  rw [h.1]
  have hadr : (calculate_adr_with_llm "Ну это что-то там в базе"
      ({ id := 3, category := "БД",
         question := "Что такое индекс в базе данных?" } : TheoryQuestion).question
      ({ id := 3, category := "БД",
         question := "Что такое индекс в базе данных?" } : TheoryQuestion).expected_topics
      (OracleReply.parsed { score := some 1 })).adr_score = ((1 : ℤ) : ℚ) / 10 := by
    unfold calculate_adr_with_llm
    rw [if_neg (by decide)]
    norm_num [min_def, max_def]
  rw [hadr]
  norm_num [theory_score_spec, min_def, max_def]

/-! ## Claim C7 -/

/-- Claim C7 (amended): EVERY theory submission stores a learning-agility
score for its question, always inside [0,1]: a submission with no prior
answer or no recorded feedback stores the placeholder 0.0 (so the first
submission does store a value, contrary to the original claim), and a
resubmission made after feedback was recorded stores the agility analyzer's
score.  (Note `feedback_received` is itself only written by a resubmission
whose agility score exceeds 0.3, so in a trace of exactly two submissions
the recorded-feedback hypothesis never holds.) -/
theorem submit_theory_agility_storage (pw : PenaltyWeights) (s : Session)
    (q : TheoryQuestion) (question_id : ℤ) (answer : String)
    (adrOracle agilityOracle : OracleReply ScorePayload) (evalScore? : Option ℤ)
    (hq : s.theory_questions.find? (fun q0 => q0.id == question_id) = some q) :
    (∃ v, lookA (submit_theory_answer pw s question_id answer adrOracle agilityOracle
        evalScore?).learning_agility_scores question_id = some v ∧ 0 ≤ v ∧ v ≤ 1) ∧
    ((lookA s.previous_answers question_id).isSome = false →
      lookA (submit_theory_answer pw s question_id answer adrOracle agilityOracle
        evalScore?).learning_agility_scores question_id = some 0) ∧
    ((lookA s.previous_answers question_id).isSome = true →
      (lookA s.feedback_received question_id).getD "" ≠ "" →
      lookA (submit_theory_answer pw s question_id answer adrOracle agilityOracle
        evalScore?).learning_agility_scores question_id =
        some ((calculate_learning_agility ((lookA s.previous_answers question_id).getD "")
          answer ((lookA s.feedback_received question_id).getD "") agilityOracle).score)) := by
  refine ⟨?_, ?_, ?_⟩
  · simp only [submit_theory_answer, hq]
    rw [lookA_updA_self]
    by_cases h : (lookA s.previous_answers question_id).isSome = true ∧
        (lookA s.feedback_received question_id).getD "" ≠ ""
    · rw [if_pos h]
      exact ⟨_, rfl, (learning_agility_score_bounds _ _ _ _).1,
        (learning_agility_score_bounds _ _ _ _).2⟩
    · rw [if_neg h]
      exact ⟨0, rfl, le_refl 0, by norm_num⟩
  · intro h
    simp only [submit_theory_answer, hq]
    rw [lookA_updA_self, if_neg (by simp [h])]
  · intro h1 h2
    simp only [submit_theory_answer, hq]
    rw [lookA_updA_self, if_pos ⟨h1, h2⟩]

def firstTheorySession : Session :=
  { level := "junior",
    theory_questions := [{ id := 1, category := "ООП",
                           question := "Что такое инкапсуляция?" }] }

theorem submit_theory_agility_storage_witness :
    lookA (submit_theory_answer [] firstTheorySession 1
        "Инкапсуляция это сокрытие внутреннего состояния объекта"
        (OracleReply.parsed { score := some 8 }) OracleReply.unparseable
        (some 7)).learning_agility_scores 1 = some 0 := by
  have h := submit_theory_agility_storage [] firstTheorySession
    { id := 1, category := "ООП", question := "Что такое инкапсуляция?" }
    1 "Инкапсуляция это сокрытие внутреннего состояния объекта"
    (OracleReply.parsed { score := some 8 }) OracleReply.unparseable (some 7) (by decide)
  exact h.2.1 (by decide)

/-- Claim C7 counterexample: a first submission (no prior answer, no prior
feedback) DOES populate `learning_agility_scores` for the question — with
the placeholder 0.0 — whereas the claim requires that no score be stored. -/
theorem first_submission_agility_counterexample :
    lookA (submit_theory_answer [] firstTheorySession 1
        "Инкапсуляция это сокрытие данных внутри класса"
        (OracleReply.parsed { score := some 8 }) OracleReply.unparseable
        (some 7)).learning_agility_scores 1 ≠ none := by decide

/-! ## Claim C5 -/

/-- Claim C5: for every code sample and level the readability penalty is the
sum of the per-violation level-dependent severity weights capped at
`2 × base_weight[level]["poor_code_readability"]`, hence never exceeds the
cap and is monotonically non-decreasing in the violation list.  The two
hypotheses say the configured base weight is a non-negative multiple of
0.1 (the shipped default is the integer 3), which makes the code's
`round(·, 2)` the identity on the capped sum. -/
theorem readability_penalty_capped_monotone (pw : PenaltyWeights) (code level : String)
    (hInt : TenthInt (pcrBase pw level)) (h0 : 0 ≤ pcrBase pw level) :
    (analyze_code_readability pw code level).penalty_score =
      min (readabilityWeightSum level (analyze_code_readability pw code level).violations)
        (pcrBase pw level * 2) ∧
    (analyze_code_readability pw code level).penalty_score ≤ pcrBase pw level * 2 ∧
    (∀ vs extra : List RViolation,
      min (readabilityWeightSum level vs) (pcrBase pw level * 2) ≤
        min (readabilityWeightSum level (vs ++ extra)) (pcrBase pw level * 2)) := by
  have hcap : TenthInt (pcrBase pw level * 2) := by
    obtain ⟨k, hk⟩ := hInt
    exact ⟨2 * k, by push_cast; linarith⟩
  have hmain : (analyze_code_readability pw code level).penalty_score =
      min (readabilityWeightSum level (analyze_code_readability pw code level).violations)
        (pcrBase pw level * 2) := by
    by_cases hc : (code.data = [] ∨ (stripChars code.data).length < 10)
    · unfold analyze_code_readability
      rw [if_pos hc]
      dsimp only
      rw [show readabilityWeightSum level [] = 0 by simp [readabilityWeightSum]]
      rw [min_eq_left (by linarith)]
    · unfold analyze_code_readability
      rw [if_neg hc]
      dsimp only
      exact pyRound2_tenthInt ((readabilityWeightSum_tenthInt level _).min hcap)
  refine ⟨hmain, ?_, ?_⟩
  · rw [hmain]
    exact min_le_right _ _
  · intro vs extra
    apply min_le_min _ (le_refl _)
    have hx : readabilityWeightSum level (vs ++ extra) =
        readabilityWeightSum level vs + readabilityWeightSum level extra := by
      unfold readabilityWeightSum
      rw [List.map_append, List.sum_append]
    have hnn := readabilityWeightSum_nonneg level extra
    linarith

theorem readability_penalty_capped_monotone_witness :
    (analyze_code_readability [("middle", [("poor_code_readability", 3)])]
        "def solution(a,b):\n    return a+b" "junior").penalty_score ≤ 6 := by
  have hc : pcrBase [("middle", [("poor_code_readability", 3)])] "junior" = 3 := by decide
  have h := readability_penalty_capped_monotone [("middle", [("poor_code_readability", 3)])]
    "def solution(a,b):\n    return a+b" "junior"
    (show TenthInt _ by rw [hc]; exact ⟨30, by norm_num⟩)
    (by rw [hc]; norm_num)
  have h2 := h.2.1
  rw [hc] at h2
  linarith

/-! ## Claim C6 -/

/-- On a blank line whose predecessor is blank, the first three per-line
checks are inert and the blank-run check fires exactly when no
`multiple_blank_lines` violation is already recorded for the previous
line. -/
theorem lineChecks_blank (i : Nat) (acc : List RViolation) :
    lineChecks (some []) i [] acc =
      (if acc.any (fun v => v.line == i - 1 && v.type == "multiple_blank_lines") then acc
       else acc ++ [{ line := i, type := "multiple_blank_lines", severity := "minor" }]) := by
  cases hA : acc.any (fun v => v.line == i - 1 && v.type == "multiple_blank_lines") <;>
    simp [lineChecks, hA, rstripChars, stripChars]

/-- Running the per-line pass over `L` blank lines with a blank predecessor
adds `⌊L/2⌋` flags when line `i − 1` is already flagged and `⌈L/2⌉` flags
otherwise: the flags alternate from the first unflagged blank line on. -/
theorem blankTail_length (L : ℕ) : ∀ (i : ℕ) (acc : List RViolation),
    (∀ v ∈ acc, v.line < i) →
    (perLinePass (some []) i (List.replicate L []) acc).length =
      acc.length +
        (if acc.any (fun v => v.line == i - 1 && v.type == "multiple_blank_lines") then L / 2
         else (L + 1) / 2) := by
  induction L with
  | zero =>
      intro i acc hinv
      cases hA : acc.any (fun v => v.line == i - 1 && v.type == "multiple_blank_lines") <;>
        simp [perLinePass, hA]
  | succ K ih =>
      intro i acc hinv
      rw [List.replicate_succ]
      show (perLinePass (some []) (i + 1) (List.replicate K [])
        (lineChecks (some []) i [] acc)).length = _
      rw [lineChecks_blank]
      cases hA : acc.any (fun v => v.line == i - 1 && v.type == "multiple_blank_lines")
      · rw [if_neg (by simp [hA])]
        have hinv2 : ∀ v ∈ acc ++
            [{ line := i, type := "multiple_blank_lines", severity := "minor" }],
            v.line < i + 1 := by
          intro v hv
          rcases List.mem_append.mp hv with hv | hv
          · exact Nat.lt_succ_of_lt (hinv v hv)
          · simp at hv
            rw [hv]
            exact Nat.lt_succ_self i
        rw [ih (i + 1) _ hinv2]
        have hA2 : (acc ++
            ([{ line := i, type := "multiple_blank_lines", severity := "minor" }] :
              List RViolation)).any
              (fun v => v.line == i + 1 - 1 && v.type == "multiple_blank_lines") = true := by
          simp [List.any_append]
        rw [hA2]
        simp [List.length_append]
        omega
      · rw [if_pos (by simp [hA])]
        have hinv2 : ∀ v ∈ acc, v.line < i + 1 := fun v hv => Nat.lt_succ_of_lt (hinv v hv)
        rw [ih (i + 1) acc hinv2]
        have hA2 : acc.any
            (fun v => v.line == i + 1 - 1 && v.type == "multiple_blank_lines") = false := by
          simp only [Nat.add_sub_cancel, List.any_eq_false]
          intro v hv
          have := hinv v hv
          simp only [Bool.and_eq_true, beq_iff_eq]
          intro hcontra
          omega
        rw [hA2]
        simp

/-- Claim C6 (amended): for a code sample consisting of a non-blank line
followed by a run of `L` consecutive blank lines, the per-line pass of
`analyze_code_readability` flags `⌊L/2⌋` `multiple_blank_lines` violations
— the 2nd, 4th, 6th, ... blank lines of the run.  A run of 2 or 3 blank
lines hence gets exactly one flag, but longer runs get one flag per two
blank lines, not one per run. -/
theorem blank_run_flag_count (L : ℕ) :
    (perLinePass none 1 ("xxxxxxxxxx".data :: List.replicate L ([] : List Char)) []).length =
      L / 2 := by
  show (perLinePass (some "xxxxxxxxxx".data) 2 (List.replicate L [])
    (lineChecks none 1 "xxxxxxxxxx".data [])).length = L / 2
  have h1 : lineChecks none 1 "xxxxxxxxxx".data [] = [] := by decide
  rw [h1]
  cases L with
  | zero => simp [perLinePass]
  | succ K =>
      rw [List.replicate_succ]
      show (perLinePass (some []) 3 (List.replicate K [])
        (lineChecks (some "xxxxxxxxxx".data) 2 [] [])).length = (K + 1) / 2
      have h2 : lineChecks (some "xxxxxxxxxx".data) 2 [] [] = [] := by decide
      rw [h2]
      rw [blankTail_length K 3 [] (by simp)]
      simp

/-- Claim C6 counterexample: the code sample `"xxxxxxxxxx\n\n\n\n"` contains
exactly one run of (four) consecutive blank lines, yet the analyzer flags
two `multiple_blank_lines` violations (at lines 3 and 5), not one. -/
theorem blank_run_single_flag_counterexample :
    ((analyze_code_readability [] "xxxxxxxxxx\n\n\n\n" "junior").violations.filter
        (fun v => v.type == "multiple_blank_lines")).length ≠ 1 := by decide

end AIInterviewer
